import Mathlib

/-!
Verification of the emotion-id training orchestrator (`emotion_id/train.py`).

The file embeds, as pure Lean functions, the parts of `train.py` that the
checked properties are about:

* the training step loop (`for step, batch in enumerate(train_datastream)`)
  with its periodic validation / periodic save / best-save / break logic
  (lines 318-383), modelled as an event trace;
* the model-selection dispatch (lines 252-309) together with the declared
  flag enum (lines 59-64);
* the streamed validation loop `validate` (lines 104-129), including the
  numpy behaviour of `np.array([]).mean()` (returns NaN, modelled `none`);
* the filewise evaluation `validate_filewise` (lines 132-184): the loss
  accumulation across files and the `torch.cat` failure on an empty
  accumulator, and the conditional label resampling at lines 159-161;
* the stash/pop state protocol as used by both evaluation functions;
* the `FixedRandomState(42)` deterministic context used by `validate`.

Machine floats are modelled by `ℚ`; the NaN produced by the mean of an
empty array is modelled by `Option.none`.
-/

/-- Flag configuration relevant to the step loop: `steps`, `val_every`,
`save_every` (train.py lines 68, 75, 76). All are positive in any run that
reaches the loop (a zero modulus would raise `ZeroDivisionError` in Python,
and the fallback derivation at lines 241-246 yields values ≥ 100 / ≥ 20). -/
structure Config where
  steps : Nat
  valEvery : Nat
  saveEvery : Nat
  deriving DecidableEq

/-- Observable events of one run of the `train` loop. -/
inductive Event where
  | batch : Nat → Event
  | validation : Nat → Event
  | bestSave : Nat → Event
  | periodicSave : Nat → Event
  | finalSave : Event
  deriving DecidableEq

/-- `v < best_val_loss` (train.py line 371), where `best_val_loss` starts as
`inf` (line 318), modelled by `none`. -/
def ltBest (v : ℚ) : Option ℚ → Bool
  | none => true
  | some b => decide (v < b)

/-- The update of `best_val_loss` performed at train.py line 374, guarded by
line 371. -/
def stepBest (b : Option ℚ) (v : ℚ) : Option ℚ :=
  if ltBest v b then some v else b

/-- `step % FLAGS.val_every == 0 and step != 0` (train.py line 344). -/
def isValStep (cfg : Config) (step : Nat) : Bool :=
  step % cfg.valEvery == 0 && step != 0

/-- `step % FLAGS.save_every == 0 and step != 0` (train.py line 377). -/
def isSaveStep (cfg : Config) (step : Nat) : Bool :=
  step % cfg.saveEvery == 0 && step != 0

/-- Events emitted by the validation block (train.py lines 344-374) at a
given step: a validation event, plus a best-save event exactly when the
streamed validation loss beats the running best. `vloss step` abstracts the
value returned by `validate` at that step. -/
def valEvents (cfg : Config) (vloss : Nat → ℚ) (step : Nat) (b : Option ℚ) :
    List Event :=
  if isValStep cfg step then
    if ltBest (vloss step) b then [Event.validation step, Event.bestSave step]
    else [Event.validation step]
  else []

/-- `best_val_loss` after the validation block at a given step. -/
def nextBest (cfg : Config) (vloss : Nat → ℚ) (step : Nat) (b : Option ℚ) :
    Option ℚ :=
  if isValStep cfg step then stepBest b (vloss step) else b

/-- Events emitted by the periodic-save block (train.py lines 377-378). -/
def saveEvents (cfg : Config) (step : Nat) : List Event :=
  if isSaveStep cfg step then [Event.periodicSave step] else []

/-- All events of one loop body at `step`: the batch is consumed first, then
the validation block runs, then the periodic-save block. The break check
`step >= FLAGS.steps` (line 380) comes only after all of these. -/
def bodyEvents (cfg : Config) (vloss : Nat → ℚ) (step : Nat) (b : Option ℚ) :
    List Event :=
  Event.batch step :: (valEvents cfg vloss step b ++ saveEvents cfg step)

/-- The step loop from a given step with the given running best loss. `fuel`
bounds the recursion; `train` supplies `steps + 1`, which is exact because the
body at `step = steps` ends in the break. The training stream is infinite
(`MultiStreamDataLoader` resamples files forever), so the loop only ever
exits through the break at line 380-381, followed by the unconditional final
save at line 383. -/
def loopFrom (cfg : Config) (vloss : Nat → ℚ) :
    Nat → Nat → Option ℚ → List Event
  | 0, _, _ => []
  | fuel + 1, step, b =>
      if cfg.steps ≤ step then
        bodyEvents cfg vloss step b ++ [Event.finalSave]
      else
        bodyEvents cfg vloss step b ++
          loopFrom cfg vloss fuel (step + 1) (nextBest cfg vloss step b)

/-- The full training loop, train.py lines 318-383: starts at step 0 with
`best_val_loss = inf`. -/
def train (cfg : Config) (vloss : Nat → ℚ) : List Event :=
  loopFrom cfg vloss (cfg.steps + 1) 0 none

/-- A constant validation-loss function used to instantiate concrete runs. -/
def zeroLoss : Nat → ℚ := fun _ => 0

/-- Recognizer for batch-consumption events. -/
def isBatchEv : Event → Bool
  | Event.batch _ => true
  | _ => false

/-! ### Model selection (train.py lines 59-64 and 252-309) -/

/-- The model architectures the dispatch can construct. -/
inductive ModelChoice where
  | linearM | baselineM | mlp2M | mlp4M | convM
  | rnnM | rnnBiM | wavenetM | wavenetUnmaskedM
  deriving DecidableEq

instance {ε α : Type} [DecidableEq ε] [DecidableEq α] :
    DecidableEq (Except ε α) := fun x y =>
  match x, y with
  | Except.ok a, Except.ok b =>
      if h : a = b then Decidable.isTrue (by rw [h])
      else Decidable.isFalse (by simp [h])
  | Except.error a, Except.error b =>
      if h : a = b then Decidable.isTrue (by rw [h])
      else Decidable.isFalse (by simp [h])
  | Except.ok _, Except.error _ => Decidable.isFalse (by simp)
  | Except.error _, Except.ok _ => Decidable.isFalse (by simp)

/-- The closed set of values `flags.DEFINE_enum` declares for `--model`
(train.py line 62). -/
def modelEnumValues : List String :=
  ["linear", "baseline", "mlp2", "mlp4", "conv", "rnn", "rnn_bi",
   "wavenet", "wavenet_unmasked"]

/-- The statement at train.py lines 252-253: a plain `if` (not `elif`) that
assigns the linear model. It is a separate statement from the chain below. -/
def firstAssign (m : String) : Option ModelChoice :=
  if m = "linear" then some ModelChoice.linearM else none

/-- The `if`/`elif`/.../`else` chain at train.py lines 254-309. Its final
`else` raises `NameError("Model name not found")`; because the chain starts
at `"baseline"`, the value `"linear"` reaches that `else`. -/
def secondChain (m : String) : Except String ModelChoice :=
  if m = "baseline" then Except.ok ModelChoice.baselineM
  else if m = "mlp2" then Except.ok ModelChoice.mlp2M
  else if m = "mlp4" then Except.ok ModelChoice.mlp4M
  else if m = "conv" then Except.ok ModelChoice.convM
  else if m = "rnn" then Except.ok ModelChoice.rnnM
  else if m = "rnn_bi" then Except.ok ModelChoice.rnnBiM
  else if m = "wavenet" then Except.ok ModelChoice.wavenetM
  else if m = "wavenet_unmasked" then Except.ok ModelChoice.wavenetUnmaskedM
  else Except.error "Model name not found"

/-- Net outcome of executing both statements in order, as Python does: an
exception raised by the second chain aborts the run even when the first
statement already assigned `model`; otherwise the chain's assignment is the
one that stands. -/
def selectModel (m : String) : Except String ModelChoice :=
  let firstResult := firstAssign m
  match secondChain m with
  | Except.error e => Except.error e
  | Except.ok c =>
      match firstResult with
      | _ => Except.ok c

/-- Boolean success recognizer for the dispatch outcome. -/
def selectOk (r : Except String ModelChoice) : Bool :=
  match r with
  | Except.ok _ => true
  | Except.error _ => false

/-! ### Streamed validation `validate` (train.py lines 104-129) -/

/-- `np.array(xs).mean()`: the arithmetic mean, except that numpy's mean of
an empty array evaluates to NaN (with a runtime warning, not an exception);
NaN is modelled by `none`. -/
def npMean (xs : List ℚ) : Option ℚ :=
  if xs = [] then none else some (xs.sum / (xs.length : ℚ))

/-- The loss-accumulation loop of `validate` (train.py lines 114-124): each
pulled batch appends its loss to `losses`, and only afterwards does
`if step >= FLAGS.valid_steps: break` run. The argument list holds the
per-batch losses the validation source would yield, in order; the returned
list holds the losses actually accumulated. -/
def collectLosses (validSteps : Nat) : Nat → List ℚ → List ℚ
  | _, [] => []
  | step, l :: rest =>
      if validSteps ≤ step then [l]
      else l :: collectLosses validSteps (step + 1) rest

/-- `validate` (train.py lines 104-129) reduced to its return value: the
numpy mean of the accumulated per-step losses. No code path in the function
raises on an empty source; the mean of zero losses is NaN (`none`). -/
def validate (validSteps : Nat) (batchLosses : List ℚ) : Option ℚ :=
  npMean (collectLosses validSteps 0 batchLosses)

/-! ### Filewise evaluation loss path (train.py lines 132-184) -/

/-- The message of the `RuntimeError` that `torch.cat` raises on an empty
tensor list (train.py line 167, reached when no file yielded any batch). -/
def catErrorMsg : String := "expected a non-empty list of Tensors"

/-- `validate_filewise` reduced to its loss result. The outer loop visits
every manifest entry; the inner loop appends one loss and one prediction per
batch of that file's stream, so the flat loss accumulator is the
concatenation of the per-file loss lists. After both loops,
`torch.cat(preds)` (line 167) raises iff the accumulator is empty — there is
no per-file emptiness check — and otherwise `np.array(losses).mean()`
(line 170) is returned. -/
def validateFilewiseLoss (files : List (List ℚ)) : Except String ℚ :=
  let losses := files.flatten
  if losses = [] then Except.error catErrorMsg
  else Except.ok (losses.sum / (losses.length : ℚ))

/-! ### Label resampling (train.py lines 119 and 157-162) -/

/-- Modelled from the spec: `resample_1d` lives in `util.py`, which is not
among this repository's sources. Spec §4.1: given labels of length `L` and a
target length `T ≥ 1`, output index `t` maps to input index
`round(t * L / T)` clamped to `[0, L-1]`; labels are categorical, so only
indices are resampled. `(2*t*L + T) / (2*T)` is `round(t*L/T)` in natural
arithmetic (half rounds up). -/
def resample_1d (labels : List Nat) (t_len : Nat) : List Nat :=
  (List.range t_len).map fun t =>
    let idx := (2 * t * labels.length + t_len) / (2 * t_len)
    labels.getD (min idx (labels.length - 1)) 0

/-- The reference labels `validate_filewise` appends for one window
(train.py lines 159-162): resampled to the prediction length only when
`logits.shape[1] > 1`, otherwise the labels are appended unresampled. -/
def filewiseRefsAppend (labels : List Nat) (predLen : Nat) : List Nat :=
  if 1 < predLen then resample_1d labels predLen else labels

/-- The labels `validate` uses for one batch (train.py line 119): always
resampled to the prediction length, with no guard. -/
def validateLabelsAppend (labels : List Nat) (predLen : Nat) : List Nat :=
  resample_1d labels predLen

/-! ### Stash/pop state protocol (train.py lines 104-128 and 132-183) -/

/-- A stateful model: its current sequential state, its stash stack, and its
train/eval mode flag. -/
structure SModel (σ : Type) where
  st : σ
  stack : List σ
  training : Bool

/-- `stash_state()`: push the current state onto the stack. -/
def stashState {σ : Type} (m : SModel σ) : SModel σ :=
  ⟨m.st, m.st :: m.stack, m.training⟩

/-- `pop_state()`: restore the most recently stashed state (matched pops
always follow a stash in the code under study, so the empty-stack branch is
never reached there). -/
def popState {σ : Type} (m : SModel σ) : SModel σ :=
  match m.stack with
  | [] => m
  | s :: rest => ⟨s, rest, m.training⟩

/-- A forward pass: updates the sequential state (recurrent hidden state,
causal buffers) by an arbitrary state transformer; never touches the stash
stack or the mode flag. -/
def forward {σ : Type} (f : σ → σ) (m : SModel σ) : SModel σ :=
  ⟨f m.st, m.stack, m.training⟩

/-- A sequence of forward passes, one per batch. -/
def forwards {σ : Type} (fs : List (σ → σ)) (m : SModel σ) : SModel σ :=
  fs.foldl (fun m f => forward f m) m

/-- `train()` / `eval()`: flips only the mode flag. -/
def setTraining {σ : Type} (b : Bool) (m : SModel σ) : SModel σ :=
  ⟨m.st, m.stack, b⟩

/-- The state effect of `validate` (train.py lines 104-128) on the two
models: `model.eval()`; `cpc.stash_state()`; `model.stash_state()`; the
batch loop forwards through both; `cpc.pop_state()`; `model.pop_state()`;
`model.train()`. The per-batch state transformers are abstract. -/
def validateStateProtocol {α β : Type} (cpc : SModel α) (model : SModel β)
    (cfs : List (α → α)) (mfs : List (β → β)) : SModel α × SModel β :=
  let modelEval := setTraining false model
  let cpcStashed := stashState cpc
  let modelStashed := stashState modelEval
  let cpcRun := forwards cfs cpcStashed
  let modelRun := forwards mfs modelStashed
  (popState cpcRun, setTraining true (popState modelRun))

/-- The state effect of `validate_filewise` (train.py lines 132-183): the
same stash/pop bracket, applied once around the whole multi-file pass; each
manifest entry contributes the forward passes of its own stream, so the
total effect is the concatenation of the per-file transformer lists. -/
def filewiseStateProtocol {α β : Type} (cpc : SModel α) (model : SModel β)
    (fileCfs : List (List (α → α))) (fileMfs : List (List (β → β))) :
    SModel α × SModel β :=
  let modelEval := setTraining false model
  let cpcStashed := stashState cpc
  let modelStashed := stashState modelEval
  let cpcRun := forwards fileCfs.flatten cpcStashed
  let modelRun := forwards fileMfs.flatten modelStashed
  (popState cpcRun, setTraining true (popState modelRun))

/-! ### Deterministic validation context (train.py line 113) -/

/-- The fixed constant `FixedRandomState(42)` seeds with, independent of the
run's global seed (train.py lines 112-113). -/
def fixedValidationSeed : Nat := 42

/-- The loss loop of `validate` with the random state threaded explicitly:
the loss of each batch may consume randomness. RNG states are abstracted as
`Nat`. -/
def collectLossesRng {B : Type} (lossOf : B → Nat → ℚ × Nat)
    (validSteps : Nat) : Nat → Nat → List B → List ℚ × Nat
  | _, rng, [] => ([], rng)
  | step, rng, b :: rest =>
      let r := lossOf b rng
      if validSteps ≤ step then ([r.1], r.2)
      else
        let rec2 := collectLossesRng lossOf validSteps (step + 1) r.2 rest
        (r.1 :: rec2.1, rec2.2)

/-- `validate` with its `FixedRandomState(42)` context made explicit: the
context saves the incoming global RNG state, runs the loop from the fixed
seed, and restores the saved state on exit. Returns the mean loss and the
RNG state the caller observes afterwards. -/
def validateRng {B : Type} (lossOf : B → Nat → ℚ × Nat) (validSteps : Nat)
    (globalRng : Nat) (batches : List B) : Option ℚ × Nat :=
  let inner := collectLossesRng lossOf validSteps 0 fixedValidationSeed batches
  (npMean inner.1, globalRng)

/-! ### Best-validation-loss bookkeeping (train.py lines 318, 371-374) -/

/-- The value of `best_val_loss` after a sequence of streamed validation
losses has been observed, starting from `inf` (`none`) and applying the
line-371/374 update at each validation event — exactly the fold the loop
`loopFrom` threads through `nextBest`. -/
def runBest (vs : List ℚ) : Option ℚ :=
  vs.foldl stepBest none

/-- Order on best-loss values with `none` as `+inf`. -/
def optLE (x y : Option ℚ) : Prop :=
  match x, y with
  | _, none => True
  | none, some _ => False
  | some a, some b => a ≤ b

/-! ### Lemmas about the loop body -/

lemma isSaveStep_iff (cfg : Config) (s : Nat) :
    isSaveStep cfg s = true ↔ (s % cfg.saveEvery = 0 ∧ s ≠ 0) := by
  simp [isSaveStep]

lemma isValStep_iff (cfg : Config) (s : Nat) :
    isValStep cfg s = true ↔ (s % cfg.valEvery = 0 ∧ s ≠ 0) := by
  simp [isValStep]

lemma periodicSave_mem_bodyEvents (cfg : Config) (vloss : Nat → ℚ)
    (step : Nat) (b : Option ℚ) (s : Nat) :
    Event.periodicSave s ∈ bodyEvents cfg vloss step b ↔
      (s = step ∧ isSaveStep cfg step = true) := by
  unfold bodyEvents valEvents saveEvents
  split <;> split <;> simp_all <;> tauto

lemma validation_mem_bodyEvents (cfg : Config) (vloss : Nat → ℚ)
    (step : Nat) (b : Option ℚ) (s : Nat) :
    Event.validation s ∈ bodyEvents cfg vloss step b ↔
      (s = step ∧ isValStep cfg step = true) := by
  unfold bodyEvents valEvents saveEvents
  split <;> split <;> simp_all

lemma finalSave_not_mem_bodyEvents (cfg : Config) (vloss : Nat → ℚ)
    (step : Nat) (b : Option ℚ) :
    Event.finalSave ∉ bodyEvents cfg vloss step b := by
  unfold bodyEvents valEvents saveEvents
  split <;> split <;> simp_all

lemma countP_isBatchEv_bodyEvents (cfg : Config) (vloss : Nat → ℚ)
    (step : Nat) (b : Option ℚ) :
    (bodyEvents cfg vloss step b).countP isBatchEv = 1 := by
  unfold bodyEvents valEvents saveEvents
  split <;> split <;> simp_all [isBatchEv]

/-! ### Lemmas about the whole loop -/

lemma periodicSave_mem_loopFrom (cfg : Config) (vloss : Nat → ℚ) (s : Nat) :
    ∀ (fuel step : Nat) (b : Option ℚ),
      (Event.periodicSave s ∈ loopFrom cfg vloss fuel step b ↔
        (step ≤ s ∧ s < step + fuel ∧ (s ≤ cfg.steps ∨ s = step) ∧
          isSaveStep cfg s = true)) := by
  intro fuel
  induction fuel with
  | zero =>
      intro step b
      simp [loopFrom]
      omega
  | succ n ih =>
      intro step b
      rw [loopFrom]
      split
      · next hstop =>
          rw [List.mem_append, periodicSave_mem_bodyEvents]
          simp only [List.mem_singleton]
          constructor
          · rintro (⟨rfl, hs⟩ | h)
            · exact ⟨le_refl _, by omega, Or.inr rfl, hs⟩
            · exact absurd h (by simp)
          · rintro ⟨h1, h2, h3, hs⟩
            have hse : s = step := by omega
            subst hse
            exact Or.inl ⟨rfl, hs⟩
      · next hstop =>
          rw [List.mem_append, periodicSave_mem_bodyEvents, ih]
          constructor
          · rintro (⟨rfl, hs⟩ | ⟨h1, h2, h3, hs⟩)
            · exact ⟨le_refl _, by omega, Or.inr rfl, hs⟩
            · exact ⟨by omega, by omega, by omega, hs⟩
          · rintro ⟨h1, h2, h3, hs⟩
            by_cases hse : s = step
            · subst hse; exact Or.inl ⟨rfl, hs⟩
            · exact Or.inr ⟨by omega, by omega, by omega, hs⟩

lemma validation_mem_loopFrom (cfg : Config) (vloss : Nat → ℚ) (s : Nat) :
    ∀ (fuel step : Nat) (b : Option ℚ),
      (Event.validation s ∈ loopFrom cfg vloss fuel step b ↔
        (step ≤ s ∧ s < step + fuel ∧ (s ≤ cfg.steps ∨ s = step) ∧
          isValStep cfg s = true)) := by
  intro fuel
  induction fuel with
  | zero =>
      intro step b
      simp [loopFrom]
      omega
  | succ n ih =>
      intro step b
      rw [loopFrom]
      split
      · next hstop =>
          rw [List.mem_append, validation_mem_bodyEvents]
          simp only [List.mem_singleton]
          constructor
          · rintro (⟨rfl, hs⟩ | h)
            · exact ⟨le_refl _, by omega, Or.inr rfl, hs⟩
            · exact absurd h (by simp)
          · rintro ⟨h1, h2, h3, hs⟩
            have hse : s = step := by omega
            subst hse
            exact Or.inl ⟨rfl, hs⟩
      · next hstop =>
          rw [List.mem_append, validation_mem_bodyEvents, ih]
          constructor
          · rintro (⟨rfl, hs⟩ | ⟨h1, h2, h3, hs⟩)
            · exact ⟨le_refl _, by omega, Or.inr rfl, hs⟩
            · exact ⟨by omega, by omega, by omega, hs⟩
          · rintro ⟨h1, h2, h3, hs⟩
            by_cases hse : s = step
            · subst hse; exact Or.inl ⟨rfl, hs⟩
            · exact Or.inr ⟨by omega, by omega, by omega, hs⟩

lemma countP_isBatchEv_loopFrom (cfg : Config) (vloss : Nat → ℚ) :
    ∀ (fuel step : Nat) (b : Option ℚ), step + fuel = cfg.steps + 1 →
      (loopFrom cfg vloss fuel step b).countP isBatchEv = fuel := by
  intro fuel
  induction fuel with
  | zero => intro step b _; simp [loopFrom]
  | succ n ih =>
      intro step b h
      rw [loopFrom]
      split
      · next hstop =>
          have hn : n = 0 := by omega
          subst hn
          rw [List.countP_append, countP_isBatchEv_bodyEvents]
          simp [isBatchEv]
      · next hstop =>
          rw [List.countP_append, countP_isBatchEv_bodyEvents,
            ih (step + 1) _ (by omega)]
          omega

lemma count_finalSave_loopFrom (cfg : Config) (vloss : Nat → ℚ) :
    ∀ (fuel step : Nat) (b : Option ℚ), step + fuel = cfg.steps + 1 →
      step ≤ cfg.steps →
      (loopFrom cfg vloss fuel step b).count Event.finalSave = 1 := by
  intro fuel
  induction fuel with
  | zero => intro step b h hle; omega
  | succ n ih =>
      intro step b h hle
      rw [loopFrom]
      split
      · next hstop =>
          rw [List.count_append]
          rw [List.count_eq_zero.mpr (finalSave_not_mem_bodyEvents cfg vloss step b)]
          simp
      · next hstop =>
          rw [List.count_append]
          rw [List.count_eq_zero.mpr (finalSave_not_mem_bodyEvents cfg vloss step b)]
          rw [ih (step + 1) _ (by omega) (by omega)]

/-! ### Lemmas about the best-loss fold -/

lemma ltBest_stepBest (v p : ℚ) (b : Option ℚ) :
    ltBest v (stepBest b p) = true ↔ (ltBest v b = true ∧ v < p) := by
  cases b with
  | none => simp [ltBest, stepBest]
  | some c =>
      by_cases h : p < c
      · have hb : stepBest (some c) p = some p := by simp [stepBest, ltBest, h]
        rw [hb]
        simp only [ltBest, decide_eq_true_eq]
        exact ⟨fun hv => ⟨hv.trans h, hv⟩, fun hv => hv.2⟩
      · have hb : stepBest (some c) p = some c := by simp [stepBest, ltBest, h]
        rw [hb]
        simp only [ltBest, decide_eq_true_eq]
        exact ⟨fun hv => ⟨hv, lt_of_lt_of_le hv (not_lt.mp h)⟩,
          fun hv => hv.1⟩

lemma ltBest_foldl (v : ℚ) :
    ∀ (vs : List ℚ) (b : Option ℚ),
      (ltBest v (vs.foldl stepBest b) = true ↔
        (ltBest v b = true ∧ ∀ p ∈ vs, v < p)) := by
  intro vs
  induction vs with
  | nil => intro b; simp
  | cons p rest ih =>
      intro b
      rw [List.foldl_cons, ih, ltBest_stepBest]
      constructor
      · rintro ⟨⟨hb, hp⟩, hrest⟩
        refine ⟨hb, ?_⟩
        intro q hq
        rcases List.mem_cons.mp hq with h | h
        · exact h ▸ hp
        · exact hrest q h
      · rintro ⟨hb, hall⟩
        exact ⟨⟨hb, hall p (List.mem_cons_self p rest)⟩,
          fun q hq => hall q (List.mem_cons_of_mem p hq)⟩

lemma optLE_stepBest (b : Option ℚ) (v : ℚ) : optLE (stepBest b v) b := by
  cases b with
  | none => simp [stepBest, optLE]
  | some c =>
      by_cases h : v < c
      · have hb : stepBest (some c) v = some v := by simp [stepBest, ltBest, h]
        rw [hb]
        exact le_of_lt h
      · have hb : stepBest (some c) v = some c := by simp [stepBest, ltBest, h]
        rw [hb]
        exact le_refl c

/-! ### Lemmas about the state protocol -/

lemma forwards_eq {σ : Type} (fs : List (σ → σ)) (m : SModel σ) :
    forwards fs m = ⟨fs.foldl (fun s f => f s) m.st, m.stack, m.training⟩ := by
  induction fs generalizing m with
  | nil => rfl
  | cons f rest ih =>
      show forwards rest (forward f m) = _
      rw [ih]
      rfl

lemma popState_forwards_stash {σ : Type} (fs : List (σ → σ)) (m : SModel σ) :
    popState (forwards fs (stashState m)) = m := by
  rw [forwards_eq]
  rfl

/-! ### Lemmas about validate -/

lemma collectLosses_length (validSteps : Nat) :
    ∀ (ls : List ℚ) (st : Nat), st ≤ validSteps →
      (collectLosses validSteps st ls).length =
        min (validSteps + 1 - st) ls.length := by
  intro ls
  induction ls with
  | nil => intro st _; simp [collectLosses]
  | cons l rest ih =>
      intro st hst
      rw [collectLosses]
      by_cases h : validSteps ≤ st
      · rw [if_pos h]
        have : st = validSteps := le_antisymm hst h
        subst this
        simp
      · rw [if_neg h]
        simp only [List.length_cons]
        rw [ih (st + 1) (by omega)]
        omega

lemma collectLosses_ne_nil (validSteps st : Nat) (ls : List ℚ)
    (h : ls ≠ []) : collectLosses validSteps st ls ≠ [] := by
  cases ls with
  | nil => exact absurd rfl h
  | cons l rest =>
      rw [collectLosses]
      by_cases hc : validSteps ≤ st
      · rw [if_pos hc]; simp
      · rw [if_neg hc]; simp

/-! ### Claim theorems -/

/-- C1 counterexample: with `steps=10, val_every=5, save_every=5` the claim
says validation at step 10 is excluded and the only periodic checkpoint is
tagged with step 5; in the run the code actually performs, the loop body at
step 10 runs in full before the break check at train.py line 380, so the run
both validates and writes a periodic checkpoint tagged `.step10`. -/
theorem c1_counterexample :
    Event.validation 10 ∈ train ⟨10, 5, 5⟩ zeroLoss
  ∧ Event.periodicSave 10 ∈ train ⟨10, 5, 5⟩ zeroLoss := by decide

/-- C1 (amended): for a run with step budget `S = cfg.steps`, save period
`K = cfg.saveEvery` and validation period `cfg.valEvery` (both positive in
any run that reaches the loop), the set of periodic checkpoint step-tags
equals the positive multiples of `K` capped at `S` INCLUSIVE — not strictly
below `S` — and validation triggers exactly at the positive multiples of
`val_every` up to and including `S`; in the scenario `steps=10, val_every=5,
save_every=5` validation triggers at steps 5 and 10 and periodic
checkpoints are tagged 5 and 10. -/
theorem c1_periodic_tags (cfg : Config) (vloss : Nat → ℚ)
    (_hv : 0 < cfg.valEvery) (_hs : 0 < cfg.saveEvery) (s : Nat) :
    (Event.periodicSave s ∈ train cfg vloss ↔
      (s % cfg.saveEvery = 0 ∧ s ≠ 0 ∧ s ≤ cfg.steps))
  ∧ (Event.validation s ∈ train cfg vloss ↔
      (s % cfg.valEvery = 0 ∧ s ≠ 0 ∧ s ≤ cfg.steps)) := by
  constructor
  · rw [train, periodicSave_mem_loopFrom, isSaveStep_iff]
    constructor
    · rintro ⟨-, h2, -, hmod, hne⟩
      exact ⟨hmod, hne, by omega⟩
    · rintro ⟨hmod, hne, hle⟩
      exact ⟨Nat.zero_le _, by omega, Or.inl hle, hmod, hne⟩
  · rw [train, validation_mem_loopFrom, isValStep_iff]
    constructor
    · rintro ⟨-, h2, -, hmod, hne⟩
      exact ⟨hmod, hne, by omega⟩
    · rintro ⟨hmod, hne, hle⟩
      exact ⟨Nat.zero_le _, by omega, Or.inl hle, hmod, hne⟩

/-- Witness for the amended C1, at the scenario configuration: step 10 is a
positive multiple of 5 not exceeding 10, so a periodic checkpoint tagged 10
is written. -/
theorem c1_periodic_tags_witness :
    (0 : Nat) < 5 ∧ Event.periodicSave 10 ∈ train ⟨10, 5, 5⟩ zeroLoss :=
  ⟨by decide,
    (c1_periodic_tags ⟨10, 5, 5⟩ zeroLoss (by decide) (by decide) 10).1.mpr
      (by decide)⟩

/-- C2 (code-bug evidence): `"linear"` belongs to the closed enum declared
for the `model` flag (train.py line 62), yet the dispatch rejects it with
`NameError("Model name not found")`, because line 254 opens a new `if`
instead of continuing with `elif`, so `"linear"` reaches the final `else`
at line 308-309; every other declared value constructs its model. -/
theorem c2_linear_dispatch :
    "linear" ∈ modelEnumValues
  ∧ selectModel "linear" = Except.error "Model name not found"
  ∧ (∀ m ∈ modelEnumValues, m ≠ "linear" →
      selectOk (selectModel m) = true) := by decide

/-- C3 counterexample: a validation call whose source yields fewer than one
batch does not abort the run: `np.array([]).mean()` evaluates to NaN
(modelled `none`, accompanied in numpy by a warning, not an exception) and
`validate` returns it as an ordinary value; the subsequent best-loss
comparison `NaN < best` is simply false and training continues. -/
theorem c3_counterexample : validate 20 [] = none := rfl

/-- C3 (amended): `validate` returns NaN (`none`) — rather than aborting —
when the source yields fewer than one batch, and otherwise returns the
arithmetic mean of the per-step cross-entropy losses it accumulated. -/
theorem c3_validate_mean (validSteps : Nat) (ls : List ℚ) (h : ls ≠ []) :
    validate validSteps [] = none
  ∧ validate validSteps ls =
      some ((collectLosses validSteps 0 ls).sum /
        ((collectLosses validSteps 0 ls).length : ℚ)) := by
  refine ⟨rfl, ?_⟩
  have hne := collectLosses_ne_nil validSteps 0 ls h
  rw [validate, npMean, if_neg hne]

/-- Witness for the amended C3 at a two-batch source. -/
theorem c3_validate_mean_witness :
    ([1, 3] : List ℚ) ≠ []
  ∧ (validate 2 [] = none
    ∧ validate 2 [1, 3] =
        some ((collectLosses 2 0 [1, 3]).sum /
          ((collectLosses 2 0 [1, 3]).length : ℚ))) :=
  ⟨by simp, c3_validate_mean 2 [1, 3] (by simp)⟩

/-- C4 counterexample: with `valid_steps = 1` and a source able to yield
three batches, two batches are pulled and contribute to the mean — more
than `max_steps = 1` — because the break check at train.py line 123 runs
only after the loss append at line 122. -/
theorem c4_counterexample :
    (collectLosses 1 0 [0, 1, 2]).length = 2
  ∧ ¬ ((collectLosses 1 0 [0, 1, 2]).length ≤ 1) := by decide

/-- C4 (amended): each `validate` call pulls and accumulates exactly
`min (valid_steps + 1) n` batches, where `n` is the number of batches the
source can yield — in particular at most `valid_steps + 1`, one more than
the claim's bound. -/
theorem c4_batches_per_validation (validSteps : Nat) (ls : List ℚ) :
    (collectLosses validSteps 0 ls).length = min (validSteps + 1) ls.length
  ∧ (collectLosses validSteps 0 ls).length ≤ validSteps + 1 := by
  have h := collectLosses_length validSteps ls 0 (Nat.zero_le _)
  simp only [Nat.sub_zero] at h
  exact ⟨h, by rw [h]; omega⟩

/-- C5: a normally terminating run consumes exactly `steps + 1` batches
(the loop bodies at steps 0 through `steps` inclusive, the break firing at
the end of the body of step `steps`) and then performs exactly one
unconditional final save. -/
theorem c5_loop_termination (cfg : Config) (vloss : Nat → ℚ)
    (_hv : 0 < cfg.valEvery) (_hs : 0 < cfg.saveEvery) :
    (train cfg vloss).countP isBatchEv = cfg.steps + 1
  ∧ (train cfg vloss).count Event.finalSave = 1 :=
  ⟨countP_isBatchEv_loopFrom cfg vloss (cfg.steps + 1) 0 none (by omega),
    count_finalSave_loopFrom cfg vloss (cfg.steps + 1) 0 none (by omega)
      (by omega)⟩

/-- Witness for C5 at `steps=3, val_every=2, save_every=2`. -/
theorem c5_loop_termination_witness :
    (train ⟨3, 2, 2⟩ zeroLoss).countP isBatchEv = 3 + 1
  ∧ (train ⟨3, 2, 2⟩ zeroLoss).count Event.finalSave = 1 :=
  c5_loop_termination ⟨3, 2, 2⟩ zeroLoss (by decide) (by decide)

/-- C6 counterexample: a manifest of two files where the second yields zero
frames. Filewise evaluation does not fail: it returns the mean over the
first file's frames, because no per-file emptiness check exists and
`torch.cat` (train.py line 167) only sees the concatenated accumulator,
which is non-empty. -/
theorem c6_counterexample :
    ([] : List ℚ) ∈ [[(1 : ℚ)], []]
  ∧ validateFilewiseLoss [[1], []] = Except.ok 1 := by
  exact ⟨by simp, by simp [validateFilewiseLoss]⟩

/-- C6 (amended): a filewise evaluation call fails iff the concatenation of
all files' yielded frames is empty — that is, only when every file yields
zero frames, not when any single file does — and otherwise returns the mean
loss over the concatenation. -/
theorem c6_filewise_failure (files : List (List ℚ)) :
    (validateFilewiseLoss files = Except.error catErrorMsg ↔
      files.flatten = [])
  ∧ (files.flatten ≠ [] →
      validateFilewiseLoss files =
        Except.ok (files.flatten.sum / (files.flatten.length : ℚ))) := by
  constructor
  · constructor
    · intro h
      by_contra hne
      simp only [validateFilewiseLoss, if_neg hne] at h
      exact Except.noConfusion h
    · intro h
      simp only [validateFilewiseLoss, if_pos h]
  · intro h
    simp only [validateFilewiseLoss, if_neg h]

/-- Witness for the amended C6: both files empty means failure. -/
theorem c6_filewise_failure_witness :
    validateFilewiseLoss [[], []] = Except.error catErrorMsg :=
  (c6_filewise_failure [[], []]).1.mpr (by simp)

/-- C7: `best_val_loss` starts at `inf` (`none`), is monotonically
non-increasing as streamed validation losses are folded in with the
train.py line-371/374 update, and that update (hence the best-checkpoint
rewrite it guards) fires iff the new streamed validation loss is strictly
smaller than every prior streamed validation loss. -/
theorem c7_best_val_loss (vs : List ℚ) (v : ℚ) :
    runBest [] = none
  ∧ optLE (runBest (vs ++ [v])) (runBest vs)
  ∧ (ltBest v (runBest vs) = true ↔ ∀ p ∈ vs, v < p) := by
  refine ⟨rfl, ?_, ?_⟩
  · rw [runBest, runBest, List.foldl_append]
    exact optLE_stepBest _ v
  · rw [runBest, ltBest_foldl]
    simp [ltBest]

/-- Witness for C7 at the loss sequence `[1]` and candidate `0`. -/
theorem c7_best_val_loss_witness :
    runBest [] = none
  ∧ optLE (runBest ([1] ++ [0])) (runBest [1])
  ∧ (ltBest 0 (runBest [1]) = true ↔ ∀ p ∈ ([1] : List ℚ), (0 : ℚ) < p) :=
  c7_best_val_loss [1] 0

/-- C8: both evaluation runners stash state on the feature extractor and on
the classifier before any forward pass and pop both after the last one,
putting the classifier back in train mode: whatever the intervening forward
passes do to the sequential state, the models returned to the training loop
are exactly the models handed over (the classifier with its mode flag set
to train), so the training stream's sequential state is untouched. -/
theorem c8_state_restoration {α β : Type} (cpc : SModel α) (model : SModel β)
    (cfs : List (α → α)) (mfs : List (β → β))
    (fileCfs : List (List (α → α))) (fileMfs : List (List (β → β))) :
    validateStateProtocol cpc model cfs mfs = (cpc, setTraining true model)
  ∧ filewiseStateProtocol cpc model fileCfs fileMfs =
      (cpc, setTraining true model) := by
  constructor
  · show (popState (forwards cfs (stashState cpc)),
      setTraining true
        (popState (forwards mfs (stashState (setTraining false model))))) = _
    rw [popState_forwards_stash, popState_forwards_stash]
    rfl
  · show (popState (forwards fileCfs.flatten (stashState cpc)),
      setTraining true
        (popState (forwards fileMfs.flatten
          (stashState (setTraining false model))))) = _
    rw [popState_forwards_stash, popState_forwards_stash]
    rfl

/-- C9: `validate` runs its loop inside `FixedRandomState(42)`, a context
seeded with the fixed constant 42 rather than the run's global seed: the
mean loss depends only on the per-batch loss functions (the frozen model)
and the batch list (the source cursor), never on the incoming global RNG
state, which is restored on exit; hence two invocations with identical model
parameters and identical source cursor return identical mean losses. -/
theorem c9_validation_determinism {B : Type} (lossOf : B → Nat → ℚ × Nat)
    (validSteps : Nat) (batches : List B) (g1 g2 : Nat) :
    (validateRng lossOf validSteps g1 batches).1 =
      (validateRng lossOf validSteps g2 batches).1
  ∧ (validateRng lossOf validSteps g1 batches).2 = g1 :=
  ⟨rfl, rfl⟩

/-- C10: filewise evaluation resamples the ground-truth labels to the
prediction length only when that length strictly exceeds 1 and appends the
full unresampled label sequence when the model emits a single prediction
frame, whereas the streamed validation path resamples unconditionally — and
the two paths genuinely differ at prediction length 1. -/
theorem c10_conditional_resample (labels : List Nat) :
    filewiseRefsAppend labels 1 = labels
  ∧ (∀ predLen, 1 < predLen →
      filewiseRefsAppend labels predLen = resample_1d labels predLen)
  ∧ (∀ predLen,
      validateLabelsAppend labels predLen = resample_1d labels predLen)
  ∧ filewiseRefsAppend [0, 1] 1 ≠ validateLabelsAppend [0, 1] 1 := by
  refine ⟨by simp [filewiseRefsAppend], ?_, fun _ => rfl, by decide⟩
  intro predLen h
  simp [filewiseRefsAppend, h]

/-- Witness for C10 at label sequence `[7, 8]` and prediction length 2. -/
theorem c10_conditional_resample_witness :
    1 < 2 ∧ filewiseRefsAppend [7, 8] 2 = resample_1d [7, 8] 2 :=
  ⟨by decide, (c10_conditional_resample [7, 8]).2.1 2 (by decide)⟩
